import Mathlib

/-!
Verification of the Swift-auth signed-token core of the repository
(`src/src/rgw/rgw_swift_auth.cc`): key derivation (`build_token`, lines
25-31), token construction (`build_token` / `encode_token`, lines 13-53)
and token verification (`rgw_swift_verify_signed_token`, lines 55-118).

Bytes are modelled as natural numbers below 256.  External collaborators
of the examined file — the HMAC-SHA1 primitive (`calc_hmac_sha1`), the
clock (`ceph_clock_now`), the random source (`get_random_bytes`) and the
account store (`rgw_get_user_info_by_swift`) — are parameters of the
definitions.  The byte-level payload and hex codecs (`::encode`,
`::decode`, `hex_to_buf`, `buf_to_hex`) live outside the examined source
files and are modelled from the spec (§4.2, §4.3, §6).
-/

namespace RgwSwiftAuth

/-- Modelled from the spec (§6): little-endian encoding of a natural
number into `w` bytes (the serializer `::encode` for fixed-width
integers is not part of the examined sources; the spec pins
little-endian fixed-width fields). -/
def toLE : Nat → Nat → List Nat
  | 0, _ => []
  | w + 1, n => n % 256 :: toLE w (n / 256)

/-- Modelled from the spec (§6): little-endian decoding of a byte list. -/
def fromLE : List Nat → Nat
  | [] => 0
  | b :: rest => b + 256 * fromLE rest

/-- Modelled from the spec (§4.2): read `w` bytes as a little-endian
integer, failing when the buffer is shorter than `w` (in the source tree
a truncated read raises `buffer::error`; here it is a typed failure). -/
def decodeLE (w : Nat) (l : List Nat) : Option (Nat × List Nat) :=
  if w ≤ l.length then some (fromLE (l.take w), l.drop w) else none

/-- Modelled from the spec (§6): length-prefixed string encoding —
4-byte little-endian length followed by the raw bytes. -/
def encodeStr (s : List Nat) : List Nat := toLE 4 s.length ++ s

/-- Modelled from the spec (§4.2, §6): decode a length-prefixed string,
rejecting buffers too short for the announced length. -/
def decodeStr (l : List Nat) : Option (List Nat × List Nat) :=
  match decodeLE 4 l with
  | none => none
  | some (n, rest) =>
    if n ≤ rest.length then some (rest.take n, rest.drop n) else none

/-- The `utime_t` timestamp: seconds plus a sub-second (nanosecond)
fraction, as used by `ceph_clock_now` and token expirations. -/
structure Utime where
  sec : Nat
  nsec : Nat
deriving DecidableEq

/-- Modelled from the spec (§6): timestamp layout — 8-byte little-endian
seconds followed by a 4-byte little-endian nanosecond fraction. -/
def encodeUtime (t : Utime) : List Nat := toLE 8 t.sec ++ toLE 4 t.nsec

/-- Modelled from the spec (§6): decode a timestamp. -/
def decodeUtime (l : List Nat) : Option (Utime × List Nat) :=
  match decodeLE 8 l with
  | none => none
  | some (s, r1) =>
    match decodeLE 4 r1 with
    | none => none
    | some (ns, r2) => some (⟨s, ns⟩, r2)

/-- Modelled from the spec (§4.5): the `<` order on timestamps used by
the expiration check, lexicographic on (seconds, fraction). -/
def utimeLt (a b : Utime) : Bool :=
  decide (a.sec < b.sec) || (decide (a.sec = b.sec) && decide (a.nsec < b.nsec))

/-- Adding a number of seconds to a timestamp (`expiration += TTL`). -/
def utimeAdd (t : Utime) (d : Nat) : Utime := ⟨t.sec + d, t.nsec⟩

/-- Modelled from the spec (§4.3): one lowercase hex digit. -/
def hexDigit (n : Nat) : Char :=
  if n < 10 then Char.ofNat (48 + n) else Char.ofNat (87 + n)

/-- Modelled from the spec (§4.3): the two hex digits of one byte. -/
def byteToHex (b : Nat) : List Char := [hexDigit (b / 16 % 16), hexDigit (b % 16)]

/-- Modelled from the spec (§4.3): `buf_to_hex` — lowercase hex text of a
byte buffer, of twice its length. -/
def bufToHex : List Nat → List Char
  | [] => []
  | b :: rest => byteToHex b ++ bufToHex rest

/-- Modelled from the spec (§4.3): numeric value of one hex character,
`none` for a non-hex character. -/
def hexVal (c : Char) : Option Nat :=
  if 48 ≤ c.toNat ∧ c.toNat ≤ 57 then some (c.toNat - 48)
  else if 97 ≤ c.toNat ∧ c.toNat ≤ 102 then some (c.toNat - 87)
  else if 65 ≤ c.toNat ∧ c.toNat ≤ 70 then some (c.toNat - 55)
  else none

/-- Modelled from the spec (§4.3): `hex_to_buf` — decode hex text to
bytes, rejecting any non-hex character. -/
def hexToBuf : List Char → Option (List Nat)
  | [] => some []
  | [_] => none
  | c1 :: c2 :: rest =>
    match hexVal c1, hexVal c2, hexToBuf rest with
    | some hi, some lo, some tl => some ((16 * hi + lo) :: tl)
    | _, _, _ => none

/-- `CEPH_CRYPTO_HMACSHA1_DIGESTSIZE`: 20 bytes. -/
def digestSize : Nat := 20

/-- The key-derivation loop of `build_token` (rgw_swift_auth.cc lines
25-30): walk the secret, OR-ing byte `i` into slot `i mod digestSize` of
the accumulator `k`. -/
def deriveLoop : List Nat → Nat → List Nat → List Nat
  | [], _, k => k
  | b :: rest, i, k =>
    deriveLoop rest (i + 1) (k.set (i % digestSize) (k.getD (i % digestSize) 0 ||| b))

/-- Key derivation of `build_token` (rgw_swift_auth.cc lines 25-30): a
zeroed digest-size buffer with every secret byte OR-ed in. -/
def derive (key : List Nat) : List Nat := deriveLoop key 0 (List.replicate digestSize 0)

/-- The serialized (username, nonce, expiration) triple built by
`build_token` (rgw_swift_auth.cc lines 15-17). -/
def payloadBytes (os_user : List Nat) (nonce : Nat) (expiration : Utime) : List Nat :=
  encodeStr os_user ++ toLE 8 nonce ++ encodeUtime expiration

/-- `build_token` (rgw_swift_auth.cc lines 13-37): serialize the triple,
derive the MAC key from the secret, append the MAC over the serialized
bytes; the function always returns 0. `hmac` stands for the external
`calc_hmac_sha1`. -/
def build_token (hmac : List Nat → List Nat → List Nat)
    (os_user key : List Nat) (nonce : Nat) (expiration : Utime) : Int × List Nat :=
  let bl := payloadBytes os_user nonce expiration
  (0, bl ++ hmac (derive key) bl)

/-- Modelled from the spec (§4.4): the fixed TTL
`RGW_SWIFT_TOKEN_EXPIRATION` (defined in a header outside the examined
sources) — 15 minutes, i.e. 900 seconds. -/
def RGW_SWIFT_TOKEN_EXPIRATION : Nat := 900

/-- `encode_token` (rgw_swift_auth.cc lines 39-53): draw a 64-bit nonce
from the random source — modelled as the pair `rand` of the return code
and the drawn value — propagating a negative return code; otherwise
stamp `expiration = now + TTL` and build the token. -/
def encode_token (hmac : List Nat → List Nat → List Nat)
    (rand : Int × Nat) (now : Utime) (os_user key : List Nat) : Int × List Nat :=
  if rand.1 < 0 then (rand.1, [])
  else build_token hmac os_user key rand.2 (utimeAdd now RGW_SWIFT_TOKEN_EXPIRATION)

/-- The `errno` value `EPERM`. -/
def EPERM : Int := 1

/-- The `errno` value `EINVAL`. -/
def EINVAL : Int := 22

/-- The `errno` value `ENOENT`. -/
def ENOENT : Int := 2

/-- The fields of `RGWUserInfo` used by this code: the account's swift
username and secret key. -/
structure RGWUserInfo where
  swift_name : List Nat
  swift_key : List Nat
deriving DecidableEq

/-- The fixed 10-character token tag `"AUTH_rgwtk"`. -/
def authTag : List Char := "AUTH_rgwtk".toList

/-- Decoding of the three payload fields from the presented buffer, as
performed by the `::decode` calls of `rgw_swift_verify_signed_token`
(lines 82-89); trailing bytes (the MAC) are left unread. -/
def decodeTriple (bl : List Nat) : Option (List Nat × Nat × Utime) :=
  match decodeStr bl with
  | none => none
  | some (os_user, r1) =>
    match decodeLE 8 r1 with
    | none => none
    | some (nonce, r2) =>
      match decodeUtime r2 with
      | none => none
      | some (expiration, _) => some (os_user, nonce, expiration)

/-- `rgw_swift_verify_signed_token` (rgw_swift_auth.cc lines 55-118).
External collaborators are parameters: `hmac` for `calc_hmac_sha1`,
`now` for `ceph_clock_now`, `lookup` for `rgw_get_user_info_by_swift`
(an `Except` carrying the store's negative return code on failure).
Returns the C `int` result together with the account record delivered on
success. -/
def rgw_swift_verify_signed_token (hmac : List Nat → List Nat → List Nat)
    (now : Utime) (lookup : List Nat → Except Int RGWUserInfo)
    (token : List Char) : Int × Option RGWUserInfo :=
  if token.take 10 ≠ authTag then (-EINVAL, none)
  else if (token.drop 10).length % 2 = 1 then (-EINVAL, none)
  else
    match hexToBuf (token.drop 10) with
    | none => (-EINVAL, none)
    | some bl =>
      match decodeTriple bl with
      | none => (-EINVAL, none)
      | some (os_user, nonce, expiration) =>
        if utimeLt expiration now then (-EPERM, none)
        else
          match lookup os_user with
          | Except.error err => (err, none)
          | Except.ok info =>
            if ((build_token hmac os_user info.swift_key nonce expiration).2).length ≠ bl.length then
              (-EPERM, none)
            else if (build_token hmac os_user info.swift_key nonce expiration).2 ≠ bl then
              (-EPERM, none)
            else (0, some info)

/-- The checks of the verifier, in the order the source performs them. -/
inductive Check where
  | tagCheck
  | parityCheck
  | hexCheck
  | decodeCheck
  | expiryCheck
  | lookupCheck
  | macCheck
deriving DecidableEq

/-- The full check order of `rgw_swift_verify_signed_token`. -/
def checkOrder : List Check :=
  [Check.tagCheck, Check.parityCheck, Check.hexCheck, Check.decodeCheck,
   Check.expiryCheck, Check.lookupCheck, Check.macCheck]

/-- `rgw_swift_verify_signed_token` instrumented with the list of checks
it performs, in order; identical branch structure to the source
function (the length test and byte comparison of lines 105-115 together
form the MAC comparison check). -/
def rgw_verify_trace (hmac : List Nat → List Nat → List Nat)
    (now : Utime) (lookup : List Nat → Except Int RGWUserInfo)
    (token : List Char) : (Int × Option RGWUserInfo) × List Check :=
  if token.take 10 ≠ authTag then ((-EINVAL, none), [Check.tagCheck])
  else if (token.drop 10).length % 2 = 1 then
    ((-EINVAL, none), [Check.tagCheck, Check.parityCheck])
  else
    match hexToBuf (token.drop 10) with
    | none => ((-EINVAL, none), [Check.tagCheck, Check.parityCheck, Check.hexCheck])
    | some bl =>
      match decodeTriple bl with
      | none =>
        ((-EINVAL, none),
         [Check.tagCheck, Check.parityCheck, Check.hexCheck, Check.decodeCheck])
      | some (os_user, nonce, expiration) =>
        if utimeLt expiration now then
          ((-EPERM, none),
           [Check.tagCheck, Check.parityCheck, Check.hexCheck, Check.decodeCheck,
            Check.expiryCheck])
        else
          match lookup os_user with
          | Except.error err =>
            ((err, none),
             [Check.tagCheck, Check.parityCheck, Check.hexCheck, Check.decodeCheck,
              Check.expiryCheck, Check.lookupCheck])
          | Except.ok info =>
            if ((build_token hmac os_user info.swift_key nonce expiration).2).length ≠ bl.length then
              ((-EPERM, none), checkOrder)
            else if (build_token hmac os_user info.swift_key nonce expiration).2 ≠ bl then
              ((-EPERM, none), checkOrder)
            else ((0, some info), checkOrder)

end RgwSwiftAuth

namespace RgwSwiftAuth

/-! ### Byte-level codec lemmas -/

theorem toLE_length (w n : Nat) : (toLE w n).length = w := by
  induction w generalizing n with
  | zero => rfl
  | succ w ih => simp [toLE, ih]

theorem toLE_lt (w n : Nat) : ∀ b ∈ toLE w n, b < 256 := by
  induction w generalizing n with
  | zero => simp [toLE]
  | succ w ih =>
    intro b hb
    simp only [toLE, List.mem_cons] at hb
    rcases hb with h | h
    · omega
    · exact ih _ _ h

theorem fromLE_toLE (w n : Nat) : fromLE (toLE w n) = n % 256 ^ w := by
  induction w generalizing n with
  | zero => simp [toLE, fromLE, Nat.mod_one]
  | succ w ih =>
    rw [pow_succ', Nat.mod_mul]
    simp [toLE, fromLE, ih]

theorem toLE_mod (w n : Nat) : toLE w (n % 256 ^ w) = toLE w n := by
  induction w generalizing n with
  | zero => rfl
  | succ w ih =>
    have hdvd : (256 : Nat) ∣ 256 ^ (w + 1) := dvd_pow_self 256 (Nat.succ_ne_zero w)
    have h1 : n % 256 ^ (w + 1) % 256 = n % 256 := Nat.mod_mod_of_dvd n hdvd
    have h2 : n % 256 ^ (w + 1) / 256 = n / 256 % 256 ^ w := by
      rw [pow_succ', Nat.mod_mul, Nat.add_mul_div_left _ _ (by norm_num : (0:Nat) < 256),
        Nat.div_eq_of_lt (Nat.mod_lt _ (by norm_num))]
      simp
    simp only [toLE, h1, h2, ih]

theorem decodeLE_toLE_append (w n : Nat) (r : List Nat) :
    decodeLE w (toLE w n ++ r) = some (n % 256 ^ w, r) := by
  have hlen : (toLE w n).length = w := toLE_length w n
  unfold decodeLE
  rw [if_pos (by simp [hlen]), List.take_left' hlen, List.drop_left' hlen, fromLE_toLE]

theorem decodeStr_encodeStr_append (u r : List Nat) (hu : u.length < 256 ^ 4) :
    decodeStr (encodeStr u ++ r) = some (u, r) := by
  unfold decodeStr encodeStr
  rw [List.append_assoc, decodeLE_toLE_append, Nat.mod_eq_of_lt hu]
  simp only [List.length_append]
  rw [if_pos (Nat.le_add_right _ _), List.take_left, List.drop_left]

theorem decodeUtime_encodeUtime_append (e : Utime) (r : List Nat) :
    decodeUtime (encodeUtime e ++ r) =
      some (⟨e.sec % 256 ^ 8, e.nsec % 256 ^ 4⟩, r) := by
  unfold decodeUtime encodeUtime
  rw [List.append_assoc]
  simp only [decodeLE_toLE_append]

theorem decodeTriple_payloadBytes (u : List Nat) (n : Nat) (e : Utime) (rest : List Nat)
    (hu : u.length < 256 ^ 4) :
    decodeTriple (payloadBytes u n e ++ rest) =
      some (u, n % 256 ^ 8, ⟨e.sec % 256 ^ 8, e.nsec % 256 ^ 4⟩) := by
  unfold decodeTriple payloadBytes
  simp only [List.append_assoc]
  simp only [decodeStr_encodeStr_append _ _ hu, decodeLE_toLE_append,
    decodeUtime_encodeUtime_append]

theorem payloadBytes_lt (u : List Nat) (n : Nat) (e : Utime)
    (hub : ∀ b ∈ u, b < 256) : ∀ b ∈ payloadBytes u n e, b < 256 := by
  intro b hb
  simp only [payloadBytes, encodeStr, encodeUtime, List.append_assoc,
    List.mem_append] at hb
  rcases hb with h | h | h | h | h
  · exact toLE_lt _ _ _ h
  · exact hub _ h
  · exact toLE_lt _ _ _ h
  · exact toLE_lt _ _ _ h
  · exact toLE_lt _ _ _ h

/-! ### Hex transport codec lemmas -/

theorem bufToHex_length (l : List Nat) : (bufToHex l).length = 2 * l.length := by
  induction l with
  | nil => rfl
  | cons b rest ih => simp [bufToHex, byteToHex, ih]; ring

theorem hexVal_hexDigit : ∀ n < 16, hexVal (hexDigit n) = some n := by decide

theorem hexToBuf_bufToHex (l : List Nat) (h : ∀ b ∈ l, b < 256) :
    hexToBuf (bufToHex l) = some l := by
  induction l with
  | nil => rfl
  | cons b rest ih =>
    have hb : b < 256 := h b (List.mem_cons_self b rest)
    have hhi : b / 16 % 16 = b / 16 := Nat.mod_eq_of_lt (Nat.div_lt_of_lt_mul hb)
    have h1 : hexVal (hexDigit (b / 16 % 16)) = some (b / 16) := by
      rw [hhi]; exact hexVal_hexDigit _ (Nat.div_lt_of_lt_mul hb)
    have h2 : hexVal (hexDigit (b % 16)) = some (b % 16) :=
      hexVal_hexDigit _ (Nat.mod_lt _ (by norm_num))
    have h3 : hexToBuf (bufToHex rest) = some rest :=
      ih (fun c hc => h c (List.mem_cons_of_mem _ hc))
    show hexToBuf (hexDigit (b / 16 % 16) :: hexDigit (b % 16) :: bufToHex rest) = _
    rw [hexToBuf, h1, h2, h3]
    have hbb : 16 * (b / 16) + b % 16 = b := by omega
    simp only [hbb]

/-! ### Reduction of the verifier on a well-formed hex token -/

theorem verify_hexToken (hmac : List Nat → List Nat → List Nat) (now : Utime)
    (lookup : List Nat → Except Int RGWUserInfo) (bl : List Nat)
    (hb : ∀ b ∈ bl, b < 256) :
    rgw_swift_verify_signed_token hmac now lookup (authTag ++ bufToHex bl) =
      match decodeTriple bl with
      | none => (-EINVAL, none)
      | some (os_user, nonce, expiration) =>
        if utimeLt expiration now then (-EPERM, none)
        else
          match lookup os_user with
          | Except.error err => (err, none)
          | Except.ok info =>
            if ((build_token hmac os_user info.swift_key nonce expiration).2).length ≠ bl.length then
              (-EPERM, none)
            else if (build_token hmac os_user info.swift_key nonce expiration).2 ≠ bl then
              (-EPERM, none)
            else (0, some info) := by
  have htag : authTag.length = 10 := rfl
  unfold rgw_swift_verify_signed_token
  rw [List.take_left' htag, List.drop_left' htag, bufToHex_length,
    hexToBuf_bufToHex _ hb]
  simp [Nat.mul_mod_right]

/-- Successful verification of a token built by `build_token`, for any
expiration not in the past of `now` and any store that returns a record
holding the same secret. -/
theorem verify_build_ok (hmac : List Nat → List Nat → List Nat) (now : Utime)
    (lookup : List Nat → Except Int RGWUserInfo) (info : RGWUserInfo)
    (u key : List Nat) (nonce : Nat) (e : Utime)
    (hu : u.length < 256 ^ 4) (hub : ∀ b ∈ u, b < 256)
    (hmb : ∀ b ∈ hmac (derive key) (payloadBytes u nonce e), b < 256)
    (hnn : nonce < 256 ^ 8) (hes : e.sec < 256 ^ 8) (hen : e.nsec < 256 ^ 4)
    (hexp : utimeLt e now = false)
    (hlk : lookup u = Except.ok info) (hkey : info.swift_key = key) :
    rgw_swift_verify_signed_token hmac now lookup
      (authTag ++ bufToHex (build_token hmac u key nonce e).2) = (0, some info) := by
  have hb : ∀ b ∈ (build_token hmac u key nonce e).2, b < 256 := by
    intro b hbmem
    simp only [build_token, List.mem_append] at hbmem
    rcases hbmem with h | h
    · exact payloadBytes_lt u nonce e hub b h
    · exact hmb b h
  rw [verify_hexToken hmac now lookup _ hb]
  have hbt : (build_token hmac u key nonce e).2 =
      payloadBytes u nonce e ++ hmac (derive key) (payloadBytes u nonce e) := rfl
  rw [hbt, decodeTriple_payloadBytes _ _ _ _ hu, Nat.mod_eq_of_lt hnn,
    Nat.mod_eq_of_lt hes, Nat.mod_eq_of_lt hen]
  show (if utimeLt e now then _ else _) = _
  rw [if_neg (by simp [hexp]), hlk]
  show (if _ then _ else if _ then _ else _) = _
  rw [hkey, if_neg (by simp [hbt]), if_neg (by simp [hbt])]

theorem utimeLt_add_add_false (t0 : Utime) (d1 d2 : Nat) (h : d2 ≤ d1) :
    utimeLt (utimeAdd t0 d1) (utimeAdd t0 d2) = false := by
  simp only [utimeLt, utimeAdd, Bool.or_eq_false_iff, Bool.and_eq_false_iff,
    decide_eq_false_iff_not]
  omega

/-- C1 — Round-trip success: for every non-empty username, non-empty
secret, and time `T0`, if the random source succeeds and the lookup maps
that username to that same secret, then verifying the encoded token at
`now = T0 + δ` succeeds and returns the record of that username, for
every `δ < TTL`.  The side hypotheses are machine-representation
invariants: bytes below 256, the username shorter than 2^32, the nonce a
64-bit value, timestamps within their encoded widths, and MAC output
bytes below 256. -/
theorem roundtrip_within_ttl (hmac : List Nat → List Nat → List Nat)
    (lookup : List Nat → Except Int RGWUserInfo)
    (u key : List Nat) (rand : Int × Nat) (t0 : Utime) (δ : Nat)
    (_hu0 : u ≠ []) (_hk0 : key ≠ [])
    (hrand : 0 ≤ rand.1)
    (hδ : δ < RGW_SWIFT_TOKEN_EXPIRATION)
    (hu : u.length < 256 ^ 4) (hub : ∀ b ∈ u, b < 256)
    (hnn : rand.2 < 256 ^ 8)
    (hes : t0.sec + RGW_SWIFT_TOKEN_EXPIRATION < 256 ^ 8) (hen : t0.nsec < 256 ^ 4)
    (hmb : ∀ b ∈ hmac (derive key)
      (payloadBytes u rand.2 (utimeAdd t0 RGW_SWIFT_TOKEN_EXPIRATION)), b < 256)
    (hlk : lookup u = Except.ok ⟨u, key⟩) :
    rgw_swift_verify_signed_token hmac (utimeAdd t0 δ) lookup
      (authTag ++ bufToHex (encode_token hmac rand t0 u key).2) =
      (0, some ⟨u, key⟩) := by
  have henc : (encode_token hmac rand t0 u key).2 =
      (build_token hmac u key rand.2 (utimeAdd t0 RGW_SWIFT_TOKEN_EXPIRATION)).2 := by
    simp [encode_token, not_lt.mpr hrand]
  rw [henc]
  exact verify_build_ok hmac (utimeAdd t0 δ) lookup ⟨u, key⟩ u key rand.2
    (utimeAdd t0 RGW_SWIFT_TOKEN_EXPIRATION) hu hub hmb hnn hes hen
    (utimeLt_add_add_false t0 _ _ (Nat.le_of_lt hδ)) hlk rfl

/-- Witness for C1 at a concrete instance. -/
theorem roundtrip_within_ttl_witness :
    rgw_swift_verify_signed_token (fun _ _ => List.replicate 20 3)
      (utimeAdd ⟨1000, 0⟩ 10)
      (fun s => if s = [97] then Except.ok ⟨[97], [98]⟩ else Except.error (-2))
      (authTag ++ bufToHex
        (encode_token (fun _ _ => List.replicate 20 3) (0, 5) ⟨1000, 0⟩ [97] [98]).2) =
      (0, some ⟨[97], [98]⟩) :=
  roundtrip_within_ttl (fun _ _ => List.replicate 20 3)
    (fun s => if s = [97] then Except.ok ⟨[97], [98]⟩ else Except.error (-2))
    [97] [98] (0, 5) ⟨1000, 0⟩ 10
    (by decide) (by decide) (by decide) (by decide) (by decide) (by decide)
    (by decide) (by decide) (by decide) (by decide) rfl

/-- C9 — Implicit inclusive expiration boundary: the expiration test of the
verifier is strictly `payload.expiration < now`, so a token verified at
exactly `now = expiration` (δ = TTL) is not rejected as expired: under
the round-trip hypotheses the token verifies successfully for every δ in
the full closed interval `[0, TTL]`. -/
theorem roundtrip_at_ttl_boundary (hmac : List Nat → List Nat → List Nat)
    (lookup : List Nat → Except Int RGWUserInfo)
    (u key : List Nat) (rand : Int × Nat) (t0 : Utime) (δ : Nat)
    (hrand : 0 ≤ rand.1)
    (hδ : δ ≤ RGW_SWIFT_TOKEN_EXPIRATION)
    (hu : u.length < 256 ^ 4) (hub : ∀ b ∈ u, b < 256)
    (hnn : rand.2 < 256 ^ 8)
    (hes : t0.sec + RGW_SWIFT_TOKEN_EXPIRATION < 256 ^ 8) (hen : t0.nsec < 256 ^ 4)
    (hmb : ∀ b ∈ hmac (derive key)
      (payloadBytes u rand.2 (utimeAdd t0 RGW_SWIFT_TOKEN_EXPIRATION)), b < 256)
    (hlk : lookup u = Except.ok ⟨u, key⟩) :
    rgw_swift_verify_signed_token hmac (utimeAdd t0 δ) lookup
      (authTag ++ bufToHex (encode_token hmac rand t0 u key).2) =
      (0, some ⟨u, key⟩) := by
  have henc : (encode_token hmac rand t0 u key).2 =
      (build_token hmac u key rand.2 (utimeAdd t0 RGW_SWIFT_TOKEN_EXPIRATION)).2 := by
    simp [encode_token, not_lt.mpr hrand]
  rw [henc]
  exact verify_build_ok hmac (utimeAdd t0 δ) lookup ⟨u, key⟩ u key rand.2
    (utimeAdd t0 RGW_SWIFT_TOKEN_EXPIRATION) hu hub hmb hnn hes hen
    (utimeLt_add_add_false t0 _ _ hδ) hlk rfl

/-- Witness for C9 at the exact boundary δ = TTL = 900. -/
theorem roundtrip_at_ttl_boundary_witness :
    rgw_swift_verify_signed_token (fun _ _ => List.replicate 20 3)
      (utimeAdd ⟨1000, 0⟩ 900)
      (fun s => if s = [97] then Except.ok ⟨[97], [98]⟩ else Except.error (-2))
      (authTag ++ bufToHex
        (encode_token (fun _ _ => List.replicate 20 3) (0, 5) ⟨1000, 0⟩ [97] [98]).2) =
      (0, some ⟨[97], [98]⟩) :=
  roundtrip_at_ttl_boundary (fun _ _ => List.replicate 20 3)
    (fun s => if s = [97] then Except.ok ⟨[97], [98]⟩ else Except.error (-2))
    [97] [98] (0, 5) ⟨1000, 0⟩ 900
    (by decide) (by decide) (by decide) (by decide) (by decide) (by decide)
    (by decide) (by decide) rfl

/-- A token built by `build_token` whose (decoded) expiration lies before
`now` is rejected with `-EPERM` whatever the store contains: the lookup
is never consulted. -/
theorem verify_built_expired (hmac : List Nat → List Nat → List Nat) (now : Utime)
    (lookup : List Nat → Except Int RGWUserInfo)
    (u key : List Nat) (nonce : Nat) (e : Utime)
    (hu : u.length < 256 ^ 4) (hub : ∀ b ∈ u, b < 256)
    (hmb : ∀ b ∈ hmac (derive key) (payloadBytes u nonce e), b < 256)
    (hexp : utimeLt ⟨e.sec % 256 ^ 8, e.nsec % 256 ^ 4⟩ now = true) :
    rgw_swift_verify_signed_token hmac now lookup
      (authTag ++ bufToHex (build_token hmac u key nonce e).2) = (-EPERM, none) := by
  have hb : ∀ b ∈ (build_token hmac u key nonce e).2, b < 256 := by
    intro b hbmem
    simp only [build_token, List.mem_append] at hbmem
    rcases hbmem with h | h
    · exact payloadBytes_lt u nonce e hub b h
    · exact hmb b h
  rw [verify_hexToken hmac now lookup _ hb]
  have hbt : (build_token hmac u key nonce e).2 =
      payloadBytes u nonce e ++ hmac (derive key) (payloadBytes u nonce e) := rfl
  rw [hbt, decodeTriple_payloadBytes _ _ _ _ hu]
  show (if utimeLt ⟨e.sec % 256 ^ 8, e.nsec % 256 ^ 4⟩ now then _ else _) = _
  rw [if_pos (by rw [hexp])]

/-- C2 — Expiration boundary: with TTL = 900 seconds, a token encoded at
time `T0` carries `expiration = T0 + TTL`, fixed at creation inside the
token's bytes, and verifying it at `now = T0 + 901` fails with the
expiration error `-EPERM` — for every store, which the expired path
never consults. -/
theorem token_expired_at_ttl_plus_one (hmac : List Nat → List Nat → List Nat)
    (lookup : List Nat → Except Int RGWUserInfo)
    (u key : List Nat) (rand : Int × Nat) (t0 : Utime)
    (hrand : 0 ≤ rand.1)
    (hu : u.length < 256 ^ 4) (hub : ∀ b ∈ u, b < 256)
    (hmb : ∀ b ∈ hmac (derive key)
      (payloadBytes u rand.2 (utimeAdd t0 RGW_SWIFT_TOKEN_EXPIRATION)), b < 256) :
    RGW_SWIFT_TOKEN_EXPIRATION = 900
    ∧ encode_token hmac rand t0 u key =
        build_token hmac u key rand.2 (utimeAdd t0 RGW_SWIFT_TOKEN_EXPIRATION)
    ∧ rgw_swift_verify_signed_token hmac (utimeAdd t0 901) lookup
        (authTag ++ bufToHex (encode_token hmac rand t0 u key).2) =
        (-EPERM, none) := by
  have henc : encode_token hmac rand t0 u key =
      build_token hmac u key rand.2 (utimeAdd t0 RGW_SWIFT_TOKEN_EXPIRATION) := by
    simp [encode_token, not_lt.mpr hrand]
  refine ⟨rfl, henc, ?_⟩
  rw [henc]
  refine verify_built_expired hmac _ lookup u key rand.2 _ hu hub hmb ?_
  simp only [utimeLt, utimeAdd, Bool.or_eq_true, decide_eq_true_eq]
  left
  have hle : (t0.sec + RGW_SWIFT_TOKEN_EXPIRATION) % 256 ^ 8 ≤
      t0.sec + RGW_SWIFT_TOKEN_EXPIRATION := Nat.mod_le _ _
  simp only [RGW_SWIFT_TOKEN_EXPIRATION] at hle ⊢
  omega

/-- Witness for C2 at a concrete instance. -/
theorem token_expired_at_ttl_plus_one_witness :
    RGW_SWIFT_TOKEN_EXPIRATION = 900
    ∧ encode_token (fun _ _ => List.replicate 20 3) (0, 5) ⟨1000, 0⟩ [97] [98] =
        build_token (fun _ _ => List.replicate 20 3) [97] [98] 5
          (utimeAdd ⟨1000, 0⟩ RGW_SWIFT_TOKEN_EXPIRATION)
    ∧ rgw_swift_verify_signed_token (fun _ _ => List.replicate 20 3)
        (utimeAdd ⟨1000, 0⟩ 901)
        (fun s => if s = [97] then Except.ok ⟨[97], [98]⟩ else Except.error (-2))
        (authTag ++ bufToHex
          (encode_token (fun _ _ => List.replicate 20 3) (0, 5) ⟨1000, 0⟩ [97] [98]).2) =
        (-EPERM, none) :=
  token_expired_at_ttl_plus_one (fun _ _ => List.replicate 20 3)
    (fun s => if s = [97] then Except.ok ⟨[97], [98]⟩ else Except.error (-2))
    [97] [98] (0, 5) ⟨1000, 0⟩
    (by decide) (by decide) (by decide) (by decide)

/-! ### Key-derivation characterization -/

theorem getD_set_self (l : List Nat) (i : Nat) (h : i < l.length) (v : Nat) :
    (l.set i v).getD i 0 = v := by
  simp [List.getD_eq_getElem?_getD, List.getElem?_set_self h]

theorem getD_set_ne (l : List Nat) (i j v : Nat) (h : i ≠ j) :
    (l.set i v).getD j 0 = l.getD j 0 := by
  simp [List.getD_eq_getElem?_getD, List.getElem?_set_ne h]

/-- The bitwise-OR of the secret bytes landing in output slot `j`: for
each index `i` of the secret, byte `i` contributes exactly when
`i % digestSize = j`.  This restates the claimed algorithm slot by
slot. -/
def orFoldAux : List Nat → Nat → Nat → Nat
  | [], _, _ => 0
  | b :: rest, i, j => (if i % digestSize = j then b else 0) ||| orFoldAux rest (i + 1) j

theorem deriveLoop_length (s : List Nat) :
    ∀ (i : Nat) (k : List Nat), (deriveLoop s i k).length = k.length := by
  induction s with
  | nil => intro i k; rfl
  | cons b rest ih => intro i k; rw [deriveLoop, ih, List.length_set]

theorem deriveLoop_getD (s : List Nat) :
    ∀ (i : Nat) (k : List Nat), k.length = digestSize → ∀ j < digestSize,
      (deriveLoop s i k).getD j 0 = k.getD j 0 ||| orFoldAux s i j := by
  induction s with
  | nil =>
    intro i k hk j hj
    simp [deriveLoop, orFoldAux]
  | cons b rest ih =>
    intro i k hk j hj
    rw [deriveLoop, orFoldAux,
      ih (i + 1) _ (by rw [List.length_set, hk]) j hj]
    by_cases hij : i % digestSize = j
    · rw [hij, if_pos rfl, getD_set_self _ _ (by rw [hk]; exact hj), Nat.lor_assoc]
    · rw [if_neg hij, getD_set_ne _ _ _ _ hij, Nat.zero_or]

/-- C3 — Key derivation algorithm: `derive(secret)` is the fixed
digest-length (20-byte) buffer obtained by initializing the output to
all zeros and, for each index `i` of the secret, bitwise-OR-ing
`secret[i]` into `output[i mod digestSize]` — stated slot by slot: the
buffer has length `digestSize = 20` and slot `j` holds the OR of exactly
the secret bytes at indices congruent to `j` modulo 20; in consequence
derivation is deterministic (equal secrets yield equal derived keys). -/
theorem derive_spec (secret : List Nat) :
    (derive secret).length = 20
    ∧ (∀ j, j < 20 → (derive secret).getD j 0 = orFoldAux secret 0 j)
    ∧ (∀ secret2, secret = secret2 → derive secret = derive secret2) := by
  refine ⟨?_, ?_, ?_⟩
  · rw [derive, deriveLoop_length, List.length_replicate]
    rfl
  · intro j hj
    rw [derive, deriveLoop_getD secret 0 _ (List.length_replicate _ _) j hj]
    have hz : (List.replicate digestSize 0).getD j 0 = 0 := by
      simp only [List.getD_eq_getElem?_getD, List.getElem?_replicate]
      split <;> rfl
    rw [hz, Nat.zero_or]
  · intro secret2 h
    rw [h]

/-- Witness for C3 at a concrete secret. -/
theorem derive_spec_witness :
    (derive [1, 2] ).length = 20
    ∧ (derive [1, 2]).getD 0 0 = orFoldAux [1, 2] 0 0
    ∧ derive [1, 2] = derive [1, 2] :=
  ⟨(derive_spec [1, 2]).1, (derive_spec [1, 2]).2.1 0 (by decide),
    (derive_spec [1, 2]).2.2 [1, 2] rfl⟩

/-- C10 — Derived-key collisions: the bitwise-OR fold is not injective.
The 20-byte secret of twenty `'a'` bytes and the 21-byte secret of
twenty-one `'a'` bytes are distinct yet derive to the same key, so every
MAC, and indeed every built token, computed from the two secrets is
identical, for every MAC function and every payload. -/
theorem derive_collision :
    (List.replicate 20 97 : List Nat) ≠ List.replicate 21 97
    ∧ derive (List.replicate 20 97) = derive (List.replicate 21 97)
    ∧ (∀ (hmac : List Nat → List Nat → List Nat) (payload : List Nat),
        hmac (derive (List.replicate 20 97)) payload =
          hmac (derive (List.replicate 21 97)) payload)
    ∧ (∀ (hmac : List Nat → List Nat → List Nat) (u : List Nat) (nonce : Nat) (e : Utime),
        build_token hmac u (List.replicate 20 97) nonce e =
          build_token hmac u (List.replicate 21 97) nonce e) := by
  have hd : derive (List.replicate 20 97) = derive (List.replicate 21 97) := by decide
  exact ⟨by decide, hd, fun hmac payload => by rw [hd],
    fun hmac u nonce e => by simp only [build_token, hd]⟩

/-- C8 — Encode failure on randomness: when the random source fails
(negative return code), `encode_token` propagates exactly that error and
produces no token bytes; when it succeeds, `encode_token` returns 0 with
the built token — so a random-source failure is the only failure the
encode path can report. -/
theorem encode_token_randomness (hmac : List Nat → List Nat → List Nat)
    (rand : Int × Nat) (now : Utime) (u key : List Nat) :
    (rand.1 < 0 → encode_token hmac rand now u key = (rand.1, []))
    ∧ (0 ≤ rand.1 → encode_token hmac rand now u key =
        (0, payloadBytes u rand.2 (utimeAdd now RGW_SWIFT_TOKEN_EXPIRATION) ++
          hmac (derive key)
            (payloadBytes u rand.2 (utimeAdd now RGW_SWIFT_TOKEN_EXPIRATION))))
    ∧ ((encode_token hmac rand now u key).1 < 0 ↔ rand.1 < 0) := by
  by_cases hr : rand.1 < 0
  · refine ⟨fun _ => by simp [encode_token, hr], fun h0 => absurd hr (not_lt.mpr h0), ?_⟩
    simp [encode_token, hr]
  · refine ⟨fun h => absurd h hr, fun _ => by simp [encode_token, hr, build_token], ?_⟩
    simp [encode_token, hr, build_token]

/-- Witness for C8: both the failing and the successful random source,
at concrete inputs. -/
theorem encode_token_randomness_witness :
    encode_token (fun _ _ => List.replicate 20 3) (-5, 0) ⟨0, 0⟩ [97] [98] = (-5, [])
    ∧ encode_token (fun _ _ => List.replicate 20 3) (0, 7) ⟨0, 0⟩ [97] [98] =
        (0, payloadBytes [97] 7 (utimeAdd ⟨0, 0⟩ RGW_SWIFT_TOKEN_EXPIRATION) ++
          (fun _ _ => List.replicate 20 3) (derive [98])
            (payloadBytes [97] 7 (utimeAdd ⟨0, 0⟩ RGW_SWIFT_TOKEN_EXPIRATION))) :=
  ⟨(encode_token_randomness (fun _ _ => List.replicate 20 3) (-5, 0) ⟨0, 0⟩ [97] [98]).1
      (by decide),
    (encode_token_randomness (fun _ _ => List.replicate 20 3) (0, 7) ⟨0, 0⟩ [97] [98]).2.1
      (by decide)⟩

/-- C4 counterexample — the claim "verify(encode(u, secretA, T0), lookup
⇒ (u, secretB), now = T0) fails whenever secretA ≠ secretB" is false on
the code: the OR-fold key derivation is lossy, so for the distinct
secrets of twenty and twenty-one `'a'` bytes the derived keys — hence
the MACs — coincide and verification succeeds, returning the account
record. -/
theorem key_sensitivity_cex :
    (List.replicate 20 97 : List Nat) ≠ List.replicate 21 97
    ∧ rgw_swift_verify_signed_token (fun k _ => k) ⟨0, 0⟩
        (fun _ => Except.ok ⟨[97], List.replicate 21 97⟩)
        (authTag ++ bufToHex
          (encode_token (fun k _ => k) (0, 5) ⟨0, 0⟩ [97] (List.replicate 20 97)).2) =
        (0, some ⟨[97], List.replicate 21 97⟩) := by
  constructor
  · decide
  · decide

/-- C4 amended — Key sensitivity up to MAC collision: verification of a
token encoded with `secretA` against a store holding `secretB` fails
(with the generic `-EPERM`) exactly in so far as the MAC computed from
the looked-up `secretB` differs from the token's MAC computed from
`secretA` over the same payload; `secretA ≠ secretB` alone does not
force this, since distinct secrets may derive to the same key
(`key_sensitivity_cex`). -/
theorem key_sensitivity_amended (hmac : List Nat → List Nat → List Nat)
    (lookup : List Nat → Except Int RGWUserInfo)
    (u secretA secretB name : List Nat) (rand : Int × Nat) (t0 : Utime)
    (hrand : 0 ≤ rand.1)
    (hu : u.length < 256 ^ 4) (hub : ∀ b ∈ u, b < 256)
    (hnn : rand.2 < 256 ^ 8)
    (hes : t0.sec + RGW_SWIFT_TOKEN_EXPIRATION < 256 ^ 8) (hen : t0.nsec < 256 ^ 4)
    (hmbA : ∀ b ∈ hmac (derive secretA)
      (payloadBytes u rand.2 (utimeAdd t0 RGW_SWIFT_TOKEN_EXPIRATION)), b < 256)
    (hlk : lookup u = Except.ok ⟨name, secretB⟩)
    (hne : hmac (derive secretB)
        (payloadBytes u rand.2 (utimeAdd t0 RGW_SWIFT_TOKEN_EXPIRATION)) ≠
      hmac (derive secretA)
        (payloadBytes u rand.2 (utimeAdd t0 RGW_SWIFT_TOKEN_EXPIRATION))) :
    rgw_swift_verify_signed_token hmac t0 lookup
      (authTag ++ bufToHex (encode_token hmac rand t0 u secretA).2) =
      (-EPERM, none) := by
  have henc : (encode_token hmac rand t0 u secretA).2 =
      (build_token hmac u secretA rand.2 (utimeAdd t0 RGW_SWIFT_TOKEN_EXPIRATION)).2 := by
    simp [encode_token, not_lt.mpr hrand]
  rw [henc]
  set e := utimeAdd t0 RGW_SWIFT_TOKEN_EXPIRATION with he
  have hb : ∀ b ∈ (build_token hmac u secretA rand.2 e).2, b < 256 := by
    intro b hbmem
    simp only [build_token, List.mem_append] at hbmem
    rcases hbmem with h | h
    · exact payloadBytes_lt u rand.2 e hub b h
    · exact hmbA b h
  rw [verify_hexToken hmac t0 lookup _ hb]
  have hbt : (build_token hmac u secretA rand.2 e).2 =
      payloadBytes u rand.2 e ++ hmac (derive secretA) (payloadBytes u rand.2 e) := rfl
  have hesec : e.sec < 256 ^ 8 := hes
  have hensec : e.nsec < 256 ^ 4 := hen
  rw [hbt, decodeTriple_payloadBytes _ _ _ _ hu, Nat.mod_eq_of_lt hnn,
    Nat.mod_eq_of_lt hesec, Nat.mod_eq_of_lt hensec]
  have hexp : utimeLt e t0 = false := utimeLt_add_add_false t0 _ 0 (Nat.zero_le _)
  show (if utimeLt e t0 then _ else _) = _
  rw [if_neg (by simp [hexp]), hlk]
  show (if (build_token hmac u secretB rand.2 e).2.length ≠
        (payloadBytes u rand.2 e ++ hmac (derive secretA) (payloadBytes u rand.2 e)).length then
      ((-EPERM : Int), (none : Option RGWUserInfo))
    else if (build_token hmac u secretB rand.2 e).2 ≠
        payloadBytes u rand.2 e ++ hmac (derive secretA) (payloadBytes u rand.2 e) then
      (-EPERM, none)
    else (0, some ⟨name, secretB⟩)) = (-EPERM, none)
  by_cases hlen : ((build_token hmac u secretB rand.2 e).2).length =
      (payloadBytes u rand.2 e ++ hmac (derive secretA) (payloadBytes u rand.2 e)).length
  · rw [if_neg (not_ne_iff.mpr hlen), if_pos ?hneq]
    case hneq =>
      intro heq
      exact hne (List.append_inj_right heq rfl)
  · rw [if_pos hlen]

/-- Witness for the amended C4 at a concrete instance with genuinely
different derived keys. -/
theorem key_sensitivity_amended_witness :
    rgw_swift_verify_signed_token (fun k _ => k) ⟨1000, 0⟩
      (fun _ => Except.ok ⟨[97], [2]⟩)
      (authTag ++ bufToHex (encode_token (fun k _ => k) (0, 5) ⟨1000, 0⟩ [97] [1]).2) =
      (-EPERM, none) :=
  key_sensitivity_amended (fun k _ => k) (fun _ => Except.ok ⟨[97], [2]⟩)
    [97] [1] [2] [97] (0, 5) ⟨1000, 0⟩
    (by decide) (by decide) (by decide) (by decide) (by decide) (by decide)
    (by decide) rfl (by decide)

/-- C5 counterexample — the claim that a failed account lookup is
externally indistinguishable from a signature mismatch is false on the
code: for one and the same well-formed token, a store failing with
`-ENOENT` makes the verifier return `-ENOENT`, while a store holding a
wrong secret makes it return `-EPERM`; the two outcomes differ. -/
theorem lookup_error_distinguishable_cex :
    rgw_swift_verify_signed_token (fun k _ => k) ⟨0, 0⟩
      (fun _ => Except.error (-ENOENT))
      (authTag ++ bufToHex (encode_token (fun k _ => k) (0, 5) ⟨0, 0⟩ [97] [98]).2) =
      (-ENOENT, none)
    ∧ rgw_swift_verify_signed_token (fun k _ => k) ⟨0, 0⟩
      (fun _ => Except.ok ⟨[97], [99]⟩)
      (authTag ++ bufToHex (encode_token (fun k _ => k) (0, 5) ⟨0, 0⟩ [97] [98]).2) =
      (-EPERM, none)
    ∧ (-ENOENT : Int) ≠ -EPERM :=
  ⟨by decide, by decide, by decide⟩

/-- C5 amended — Error propagation on the verification path: when the
account lookup for the token's username fails, the verifier returns the
store's error code unchanged (lines 95-96 of the source), so a
user-not-found code such as `-ENOENT` is observably different from the
`-EPERM` produced by a signature mismatch. -/
theorem lookup_error_propagates (hmac : List Nat → List Nat → List Nat) (now : Utime)
    (lookup : List Nat → Except Int RGWUserInfo)
    (bl u : List Nat) (n : Nat) (e : Utime) (err : Int)
    (hb : ∀ b ∈ bl, b < 256)
    (hd : decodeTriple bl = some (u, n, e))
    (hexp : utimeLt e now = false)
    (hlk : lookup u = Except.error err) :
    rgw_swift_verify_signed_token hmac now lookup (authTag ++ bufToHex bl) =
      (err, none) := by
  rw [verify_hexToken hmac now lookup _ hb, hd]
  show (if utimeLt e now then _ else _) = _
  rw [if_neg (by simp [hexp]), hlk]

/-- Witness for the amended C5 at a concrete instance. -/
theorem lookup_error_propagates_witness :
    rgw_swift_verify_signed_token (fun k _ => k) ⟨0, 0⟩
      (fun _ => Except.error (-2))
      (authTag ++ bufToHex (encode_token (fun k _ => k) (0, 5) ⟨0, 0⟩ [97] [98]).2) =
      (-2, none) :=
  lookup_error_propagates (fun k _ => k) ⟨0, 0⟩ (fun _ => Except.error (-2))
    (encode_token (fun k _ => k) (0, 5) ⟨0, 0⟩ [97] [98]).2
    [97] 5 ⟨900, 0⟩ (-2)
    (by decide) (by decide) (by decide) rfl

/-! ### Decode totality: truncation and trailing bytes -/

theorem decodeLE_short (w : Nat) (l : List Nat) (h : l.length < w) :
    decodeLE w l = none := by
  unfold decodeLE
  rw [if_neg (by omega)]

/-- Every strict truncation of a serialized payload is rejected by the
payload decoder. -/
theorem decodeTriple_truncated (u : List Nat) (n : Nat) (e : Utime) (k : Nat)
    (hu : u.length < 256 ^ 4) (hk : k < (payloadBytes u n e).length) :
    decodeTriple ((payloadBytes u n e).take k) = none := by
  have hlen : (payloadBytes u n e).length = u.length + 24 := by
    simp [payloadBytes, encodeStr, encodeUtime, List.length_append, toLE_length]
    omega
  have hpb : payloadBytes u n e =
      toLE 4 u.length ++ (u ++ (toLE 8 n ++ (toLE 8 e.sec ++ toLE 4 e.nsec))) := by
    simp [payloadBytes, encodeStr, encodeUtime, List.append_assoc]
  rw [hlen] at hk
  by_cases h4 : k < 4
  · have hshort : ((payloadBytes u n e).take k).length < 4 := by
      rw [List.length_take]
      omega
    simp only [decodeTriple, decodeStr, decodeLE_short _ _ hshort]
  · push_neg at h4
    rw [hpb, List.take_append_eq_append_take,
      List.take_of_length_le (by rw [toLE_length]; exact h4), toLE_length]
    have htlen : ((u ++ (toLE 8 n ++ (toLE 8 e.sec ++ toLE 4 e.nsec))).take (k - 4)).length
        = k - 4 := by
      rw [List.length_take]
      simp only [List.length_append, toLE_length]
      omega
    simp only [decodeTriple, decodeStr, decodeLE_toLE_append, Nat.mod_eq_of_lt hu]
    by_cases hL : u.length ≤ k - 4
    · rw [if_pos (by rw [htlen]; exact hL)]
      have hdrop : ((u ++ (toLE 8 n ++ (toLE 8 e.sec ++ toLE 4 e.nsec))).take (k - 4)).drop
          u.length = (toLE 8 n ++ (toLE 8 e.sec ++ toLE 4 e.nsec)).take (k - 4 - u.length) := by
        rw [List.drop_take, List.drop_left]
      by_cases hm8 : k - 4 - u.length < 8
      · have hshort8 : ((toLE 8 n ++ (toLE 8 e.sec ++ toLE 4 e.nsec)).take
            (k - 4 - u.length)).length < 8 := by
          rw [List.length_take]
          omega
        simp only [hdrop, decodeLE_short _ _ hshort8]
      · push_neg at hm8
        have hdec8 : decodeLE 8
            ((toLE 8 n ++ (toLE 8 e.sec ++ toLE 4 e.nsec)).take (k - 4 - u.length)) =
            some (n % 256 ^ 8,
              (toLE 8 e.sec ++ toLE 4 e.nsec).take (k - 4 - u.length - 8)) := by
          rw [List.take_append_eq_append_take,
            List.take_of_length_le (by rw [toLE_length]; exact hm8), toLE_length,
            decodeLE_toLE_append]
        by_cases hm28 : k - 4 - u.length - 8 < 8
        · have hshortU : ((toLE 8 e.sec ++ toLE 4 e.nsec).take
              (k - 4 - u.length - 8)).length < 8 := by
            rw [List.length_take]
            omega
          simp only [hdrop, hdec8, decodeUtime, decodeLE_short _ _ hshortU]
        · push_neg at hm28
          have hdecU : decodeLE 8
              ((toLE 8 e.sec ++ toLE 4 e.nsec).take (k - 4 - u.length - 8)) =
              some (e.sec % 256 ^ 8,
                (toLE 4 e.nsec).take (k - 4 - u.length - 8 - 8)) := by
            rw [List.take_append_eq_append_take,
              List.take_of_length_le (by rw [toLE_length]; exact hm28), toLE_length,
              decodeLE_toLE_append]
          have hshortN : ((toLE 4 e.nsec).take (k - 4 - u.length - 8 - 8)).length < 4 := by
            rw [List.length_take, toLE_length]
            omega
          simp only [hdrop, hdec8, decodeUtime, hdecU, decodeLE_short _ _ hshortN]
    · rw [if_neg (by rw [htlen]; exact hL)]

/-- C7 counterexample — the claim that an over-long buffer presented to
the payload decoder during verification is rejected as `InvalidFormat`
is false on the code: a payload followed by 30 bytes of trailing junk
decodes successfully, and full verification of the corresponding token
fails only later, at the MAC-length comparison, with the generic
`-EPERM` rather than the `-EINVAL` of a decode failure. -/
theorem decode_overlong_cex :
    decodeTriple (payloadBytes [97] 0 ⟨5, 0⟩ ++ List.replicate 30 7) =
      some ([97], 0, ⟨5, 0⟩)
    ∧ rgw_swift_verify_signed_token (fun k _ => k) ⟨0, 0⟩
        (fun _ => Except.ok ⟨[97], [98]⟩)
        (authTag ++ bufToHex (payloadBytes [97] 0 ⟨5, 0⟩ ++ List.replicate 30 7)) =
        (-EPERM, none)
    ∧ (-EPERM : Int) ≠ -EINVAL :=
  ⟨by decide, by decide, by decide⟩

/-- C7 amended — Payload decode totality: the decoder is a total
function into an option type (no exception escapes the embedding, every
failure is the typed `none`, surfaced by the verifier as `-EINVAL`);
every strict truncation of a serialized payload is rejected as `none`;
but an over-long buffer — a payload followed by arbitrary trailing
bytes — decodes successfully, the trailing bytes being left to the
later MAC comparison. -/
theorem decode_totality_amended (hmac : List Nat → List Nat → List Nat)
    (now : Utime) (lookup : List Nat → Except Int RGWUserInfo)
    (bl u : List Nat) (n : Nat) (e : Utime) (k : Nat) (rest : List Nat)
    (hu : u.length < 256 ^ 4) :
    ((∀ b ∈ bl, b < 256) → decodeTriple bl = none →
      rgw_swift_verify_signed_token hmac now lookup (authTag ++ bufToHex bl) =
        (-EINVAL, none))
    ∧ (k < (payloadBytes u n e).length →
        decodeTriple ((payloadBytes u n e).take k) = none)
    ∧ decodeTriple (payloadBytes u n e ++ rest) =
        some (u, n % 256 ^ 8, ⟨e.sec % 256 ^ 8, e.nsec % 256 ^ 4⟩) := by
  refine ⟨fun hb hd => ?_, fun hk => decodeTriple_truncated u n e k hu hk,
    decodeTriple_payloadBytes u n e rest hu⟩
  rw [verify_hexToken hmac now lookup bl hb, hd]

/-- Witness for the amended C7 at concrete instances of all three
conjuncts. -/
theorem decode_totality_amended_witness :
    rgw_swift_verify_signed_token (fun k _ => k) ⟨0, 0⟩
      (fun _ => Except.error (-2)) (authTag ++ bufToHex [1, 2]) = (-EINVAL, none)
    ∧ decodeTriple ((payloadBytes [97] 0 ⟨5, 0⟩).take 3) = none
    ∧ decodeTriple (payloadBytes [97] 0 ⟨5, 0⟩ ++ [9]) =
        some ([97], 0 % 256 ^ 8, ⟨5 % 256 ^ 8, 0 % 256 ^ 4⟩) :=
  ⟨(decode_totality_amended (fun k _ => k) ⟨0, 0⟩ (fun _ => Except.error (-2))
      [1, 2] [97] 0 ⟨5, 0⟩ 3 [9] (by decide)).1 (by decide) (by decide),
    (decode_totality_amended (fun k _ => k) ⟨0, 0⟩ (fun _ => Except.error (-2))
      [1, 2] [97] 0 ⟨5, 0⟩ 3 [9] (by decide)).2.1 (by decide),
    (decode_totality_amended (fun k _ => k) ⟨0, 0⟩ (fun _ => Except.error (-2))
      [1, 2] [97] 0 ⟨5, 0⟩ 3 [9] (by decide)).2.2⟩

/-! ### Check ordering of the verifier -/

theorem trace_fst (hmac : List Nat → List Nat → List Nat) (now : Utime)
    (lookup : List Nat → Except Int RGWUserInfo) (token : List Char) :
    (rgw_verify_trace hmac now lookup token).1 =
      rgw_swift_verify_signed_token hmac now lookup token := by
  unfold rgw_verify_trace rgw_swift_verify_signed_token
  repeat' split
  all_goals rfl

theorem trace_prefixOf (hmac : List Nat → List Nat → List Nat) (now : Utime)
    (lookup : List Nat → Except Int RGWUserInfo) (token : List Char) :
    (rgw_verify_trace hmac now lookup token).2 <+: checkOrder := by
  unfold rgw_verify_trace
  repeat' split
  all_goals first
    | exact ⟨[Check.parityCheck, Check.hexCheck, Check.decodeCheck, Check.expiryCheck,
        Check.lookupCheck, Check.macCheck], rfl⟩
    | exact ⟨[Check.hexCheck, Check.decodeCheck, Check.expiryCheck,
        Check.lookupCheck, Check.macCheck], rfl⟩
    | exact ⟨[Check.decodeCheck, Check.expiryCheck, Check.lookupCheck, Check.macCheck], rfl⟩
    | exact ⟨[Check.expiryCheck, Check.lookupCheck, Check.macCheck], rfl⟩
    | exact ⟨[Check.lookupCheck, Check.macCheck], rfl⟩
    | exact ⟨[Check.macCheck], rfl⟩
    | exact ⟨[], rfl⟩

theorem trace_expired_stops (hmac : List Nat → List Nat → List Nat) (now : Utime)
    (lookup : List Nat → Except Int RGWUserInfo) (token : List Char)
    (bl u : List Nat) (n : Nat) (e : Utime)
    (htag : token.take 10 = authTag)
    (hpar : (token.drop 10).length % 2 ≠ 1)
    (hhex : hexToBuf (token.drop 10) = some bl)
    (hdec : decodeTriple bl = some (u, n, e))
    (hexp : utimeLt e now = true) :
    rgw_swift_verify_signed_token hmac now lookup token = (-EPERM, none)
    ∧ (rgw_verify_trace hmac now lookup token).2 =
        [Check.tagCheck, Check.parityCheck, Check.hexCheck, Check.decodeCheck,
         Check.expiryCheck] := by
  constructor
  · unfold rgw_swift_verify_signed_token
    rw [if_neg (by simp [htag]), if_neg hpar]
    simp only [hhex, hdec, hexp, if_true]
  · unfold rgw_verify_trace
    rw [if_neg (by simp [htag]), if_neg hpar]
    simp only [hhex, hdec, hexp, if_true]

/-- C6 — Ordered short-circuit verification: the verifier's checks run
in the fixed order tag, parity, hex decode, payload decode, expiration,
account lookup, MAC comparison; the instrumented trace computes the same
result as the verifier, the trace is always an initial segment of that
fixed order (the first failing check ends it), and for a token whose
decoded expiration lies before `now` the verifier stops at the
expiration check with `-EPERM`: neither the account lookup nor any MAC
computation is performed. -/
theorem verify_check_order (hmac : List Nat → List Nat → List Nat) (now : Utime)
    (lookup : List Nat → Except Int RGWUserInfo) (token : List Char) :
    (rgw_verify_trace hmac now lookup token).1 =
      rgw_swift_verify_signed_token hmac now lookup token
    ∧ (rgw_verify_trace hmac now lookup token).2 <+: checkOrder
    ∧ (∀ (bl u : List Nat) (n : Nat) (e : Utime),
        token.take 10 = authTag → (token.drop 10).length % 2 ≠ 1 →
        hexToBuf (token.drop 10) = some bl → decodeTriple bl = some (u, n, e) →
        utimeLt e now = true →
        rgw_swift_verify_signed_token hmac now lookup token = (-EPERM, none)
        ∧ (rgw_verify_trace hmac now lookup token).2 =
            [Check.tagCheck, Check.parityCheck, Check.hexCheck, Check.decodeCheck,
             Check.expiryCheck]
        ∧ Check.lookupCheck ∉ (rgw_verify_trace hmac now lookup token).2
        ∧ Check.macCheck ∉ (rgw_verify_trace hmac now lookup token).2) := by
  refine ⟨trace_fst hmac now lookup token, trace_prefixOf hmac now lookup token,
    fun bl u n e htag hpar hhex hdec hexp => ?_⟩
  obtain ⟨h1, h2⟩ :=
    trace_expired_stops hmac now lookup token bl u n e htag hpar hhex hdec hexp
  refine ⟨h1, h2, ?_, ?_⟩ <;> rw [h2] <;> decide

/-- Witness for C6 on a concrete expired token. -/
theorem verify_check_order_witness :
    rgw_swift_verify_signed_token (fun k _ => k) ⟨100, 0⟩
      (fun _ => Except.ok ⟨[97], [98]⟩)
      (authTag ++ bufToHex (build_token (fun k _ => k) [97] [98] 5 ⟨5, 0⟩).2) =
      (-EPERM, none)
    ∧ (rgw_verify_trace (fun k _ => k) ⟨100, 0⟩
        (fun _ => Except.ok ⟨[97], [98]⟩)
        (authTag ++ bufToHex (build_token (fun k _ => k) [97] [98] 5 ⟨5, 0⟩).2)).2 =
        [Check.tagCheck, Check.parityCheck, Check.hexCheck, Check.decodeCheck,
         Check.expiryCheck]
    ∧ Check.lookupCheck ∉ (rgw_verify_trace (fun k _ => k) ⟨100, 0⟩
        (fun _ => Except.ok ⟨[97], [98]⟩)
        (authTag ++ bufToHex (build_token (fun k _ => k) [97] [98] 5 ⟨5, 0⟩).2)).2
    ∧ Check.macCheck ∉ (rgw_verify_trace (fun k _ => k) ⟨100, 0⟩
        (fun _ => Except.ok ⟨[97], [98]⟩)
        (authTag ++ bufToHex (build_token (fun k _ => k) [97] [98] 5 ⟨5, 0⟩).2)).2 :=
  (verify_check_order (fun k _ => k) ⟨100, 0⟩ (fun _ => Except.ok ⟨[97], [98]⟩)
    (authTag ++ bufToHex (build_token (fun k _ => k) [97] [98] 5 ⟨5, 0⟩).2)).2.2
    ((build_token (fun k _ => k) [97] [98] 5 ⟨5, 0⟩).2) [97] 5 ⟨5, 0⟩
    (by decide) (by decide) (by decide) (by decide) (by decide)
